import Mathlib

/-!
Verification of the batched-execution engine of the ONNX backend
(`src/backends/onnx/onnx_backend.cc`).

The development shallowly embeds the run path of the backend:
`OnnxBackend::Context::SetInputTensor` (batch assembly),
`OnnxBackend::Context::Run` (the execution invoker),
`OnnxBackend::Context::ReadOutputTensors` (output distribution),
`OnnxBackend::Context::ReleaseOrtRunResources` and `OnnxBackend::Run`
(dispatch and per-run resource lifecycle).

Modelling conventions:
- machine integers (`size_t`, `int64_t` dimensions of concrete request
  tensors, byte counts) are modelled as `Nat`;
- raw byte buffers are `List Nat`; `memcpy` into a buffer at an offset is
  `writeAt`; reading a slice is `extractSeg`; the `new char[n]` buffer is
  modelled zero-initialised (no embedded claim depends on unwritten bytes);
- calls into the ONNX runtime (`OrtRun`) are an oracle function supplied as
  an argument; handle-creation calls (`OrtCreateTensorWithDataAsOrtValue`,
  `OrtCreateCpuAllocatorInfo`) are modelled as succeeding, and releasing a
  handle (`OrtReleaseValue`) is modelled by clearing the per-run lists;
- the pull-based `InferRequestProvider::GetNextInputContent` interface is
  modelled per payload by a list of content chunks per input name plus a
  flag saying whether the provider reports a non-OK status once the chunks
  are exhausted (in the source a `nullptr` content pointer ends the stream).
-/

/-- The `RequestStatusCode` enumeration of the server core (only the codes the embedded
functions produce). -/
inductive RequestStatusCode where
  | SUCCESS
  | INVALID_ARG
  | INTERNAL
  deriving DecidableEq, Repr

/-- The `Status` type: a request status code plus a message, as in `src/core/status`. -/
structure Status where
  code : RequestStatusCode
  msg : String
  deriving DecidableEq, Repr

/-- Embeds `Status::IsOk()`: true exactly for the success code. -/
def Status.IsOk (s : Status) : Bool := s.code = RequestStatusCode.SUCCESS

/-- Embeds `Status::Success`. -/
def Status.Success : Status := ⟨RequestStatusCode.SUCCESS, ""⟩

/-- Model configuration datatypes used by the backend (the subset needed by
the claims; every supported type behaves identically up to its byte size). -/
inductive DataType where
  | TYPE_UINT8
  | TYPE_INT8
  | TYPE_INT32
  | TYPE_INT64
  | TYPE_FP16
  | TYPE_FP32
  deriving DecidableEq, Repr

/-- Modelled from the spec: `GetDataTypeByteSize` of `src/core/model_config`
(not under `src/`) returns the byte size of one element of the datatype;
the spec calls this the "datatype size". -/
def GetDataTypeByteSize : DataType → Nat
  | .TYPE_UINT8 => 1
  | .TYPE_INT8 => 1
  | .TYPE_INT32 => 4
  | .TYPE_INT64 => 8
  | .TYPE_FP16 => 2
  | .TYPE_FP32 => 4

/-- Modelled from the spec: `GetElementCount` of `src/core/model_config_utils`
(not under `src/`): the product of the dimensions of a shape, the
"element count" of the spec. Written as the left fold the byte-size
computations in the source perform. -/
def GetElementCount (dims : List Nat) : Nat := dims.foldl (fun a d => a * d) 1

/-- An ONNX runtime tensor (`OrtValue` holding a tensor): its dimensions,
element datatype and raw data bytes. -/
structure OrtTensor where
  dims : List Nat
  elemType : DataType
  data : List Nat
  deriving DecidableEq, Repr

/-- Embeds `InferRequestProvider::InputOverride`: a named extra input a request
provider supplies beyond the model-configured inputs, carrying its own
datatype and dimensions (`datatype_`, `dims_`). -/
structure InputOverride where
  name : String
  datatype : DataType
  dims : List Nat
  deriving DecidableEq, Repr

/-- One `Scheduler::Payload` as seen by the run path: its mutable status,
its request header (batch size and per-input name/dims entries), its input
override map, its pull-based input content (chunks per input name, plus
whether the provider ends the stream with a non-OK status), and its response
provider (present or not, per-output required predicate, and the status its
`AllocateOutputBuffer` returns for a name and requested byte size).
`allocLog` records each (name, byte size) allocation request issued to the
response provider and `received` each (name, bytes) slice copied into an
allocated buffer. -/
structure Payload where
  status : Status
  batchSize : Nat
  headerInputs : List (String × List Nat)
  overrides : List InputOverride
  inputChunks : String → List (List Nat)
  inputErr : String → Bool
  hasResponseProvider : Bool
  requiresOutput : String → Bool
  allocStatus : String → Nat → Status
  allocLog : List (String × Nat)
  received : List (String × List Nat)

instance : Inhabited Payload :=
  ⟨{ status := Status.Success, batchSize := 0, headerInputs := [],
     overrides := [], inputChunks := fun _ => [], inputErr := fun _ => false,
     hasResponseProvider := false, requiresOutput := fun _ => false,
     allocStatus := fun _ _ => Status.Success, allocLog := [], received := [] }⟩

/-- Embeds `ModelInput` of the model configuration (fields the run path reads). -/
structure ModelInput where
  name : String
  data_type : DataType
  dims : List Nat
  deriving DecidableEq, Repr

/-- Embeds `ModelOutput` of the model configuration (fields the run path reads). -/
structure ModelOutput where
  name : String
  data_type : DataType
  dims : List Nat
  deriving DecidableEq, Repr

/-- The model configuration slice the run path consumes. -/
structure ModelConfig where
  input : List ModelInput
  output : List ModelOutput
  deriving DecidableEq, Repr

/-- Modelled from the spec: `InferenceBackend::GetInput` (base class, not
under `src/`) looks the named input up in the model configuration. -/
def GetInput (cfg : ModelConfig) (name : String) : Option ModelInput :=
  cfg.input.find? (fun mi => mi.name == name)

/-- Modelled from the spec: `InferenceBackend::GetOutput` (base class, not
under `src/`) looks the named output up in the model configuration. -/
def GetOutput (cfg : ModelConfig) (name : String) : Option ModelOutput :=
  cfg.output.find? (fun mo => mo.name == name)

/-- Embeds `memcpy(buf + off, data, data.length)`: overwrite `buf` starting at
byte offset `off` with `data`. -/
def writeAt (buf : List Nat) (off : Nat) (data : List Nat) : List Nat :=
  buf.take off ++ data ++ buf.drop (off + data.length)

/-- Read the `len` bytes of `l` starting at offset `off`. -/
def extractSeg (l : List Nat) (off len : Nat) : List Nat :=
  (l.drop off).take len

/-- Status produced at line 447 of `onnx_backend.cc` when a content chunk
would run past the end of the batched input buffer. -/
def unexpectedSizeStatus (got : Nat) (name : String) (expecting : Nat) : Status :=
  ⟨RequestStatusCode.INVALID_ARG,
   "unexpected size " ++ toString got ++ " for inference input " ++ name ++
     ", expecting " ++ toString expecting⟩

/-- Status produced at line 464 of `onnx_backend.cc` when a payload delivered
a number of bytes different from its expected byte count. -/
def shortDeliveryStatus (expected : Nat) (name : String) (got : Nat) : Status :=
  ⟨RequestStatusCode.INTERNAL,
   "expected " ++ toString expected ++ " bytes of data for inference input " ++
     name ++ ", got " ++ toString got⟩

/-- The non-OK status a request provider reports from
`GetNextInputContent` when it fails to produce content (the concrete
status text is the provider's own; only its non-OK-ness is observable to
the embedded code). -/
def providerErrorStatus (name : String) : Status :=
  ⟨RequestStatusCode.INTERNAL, "failed to get input content for " ++ name⟩

/-- The `while (payload.status_.IsOk())` copy loop of `SetInputTensor`
(lines 431-461) for one payload: pull successive content chunks, check each
against the remaining capacity of the whole buffer, and `memcpy` it at
`off + copied`. Returns the payload status after the loop, the updated
buffer, and the number of bytes copied. -/
def copyChunks (name : String) (total_byte_size off : Nat) :
    List (List Nat) → Bool → Status → List Nat → Nat → Status × List Nat × Nat
  | chunks, errAfter, st, buf, copied =>
    if st.IsOk = false then (st, buf, copied)
    else
      match chunks with
      | [] =>
        if errAfter then (providerErrorStatus name, buf, copied) else (st, buf, copied)
      | c :: rest =>
        if total_byte_size < off + copied + c.length then
          (unexpectedSizeStatus (off + copied + c.length) name total_byte_size, buf, copied)
        else
          copyChunks name total_byte_size off rest errAfter st
            (writeAt buf (off + copied) c) (copied + c.length)

/-- The per-payload body of `SetInputTensor`s payload loop (lines 424-472):
run the chunk-copy loop, then flag a payload that was OK but did not copy
exactly `batch_size * batch1_byte_size` bytes; the write offset advances by
the expected byte count unconditionally (line 471). Returns the updated
payload, buffer, and next write offset. -/
def setInputPayload (name : String) (batch1_byte_size total_byte_size off : Nat)
    (p : Payload) (buf : List Nat) : Payload × List Nat × Nat :=
  let expected_byte_size := p.batchSize * batch1_byte_size
  let r := copyChunks name total_byte_size off (p.inputChunks name)
    (p.inputErr name) p.status buf 0
  let st :=
    if r.1.IsOk ∧ r.2.2 ≠ expected_byte_size then
      shortDeliveryStatus expected_byte_size name r.2.2
    else r.1
  ({ p with status := st }, r.2.1, off + expected_byte_size)

/-- The payload loop of `SetInputTensor` (lines 423-472): visit the payloads
in order, copying each one into the buffer at its running offset. -/
def setInputCopyLoop (name : String) (batch1_byte_size total_byte_size : Nat) :
    List Payload → Nat → List Nat → List Payload × List Nat
  | [], _, buf => ([], buf)
  | p :: rest, off, buf =>
    let r := setInputPayload name batch1_byte_size total_byte_size off p buf
    let rr := setInputCopyLoop name batch1_byte_size total_byte_size rest r.2.2 r.2.1
    (r.1 :: rr.1, rr.2)

/-- Embeds `OnnxBackend::Context::SetInputTensor` (lines 391-482): size the batched
buffer from the non-batch dimensions and the datatype, only prepend the
batch dimension when the context supports batching (`max_batch_size_ != 0`,
`NO_BATCHING == 0`), concatenate the payloads into the buffer, and wrap the
buffer as one tensor. `OrtCreateTensorWithDataAsOrtValue` is external and
modelled as succeeding, so the returned status is the `Status::Success` of
line 481. Returns (status, updated payloads, created tensor). -/
def SetInputTensor (max_batch_size : Nat) (name : String) (datatype : DataType)
    (dims : List Nat) (total_batch_size : Nat) (payloads : List Payload) :
    Status × List Payload × OrtTensor :=
  let input_dims := (if max_batch_size ≠ 0 then [total_batch_size] else []) ++ dims
  let batch1_element_cnt := dims.foldl (fun a d => a * d) 1
  let batch1_byte_size := batch1_element_cnt * GetDataTypeByteSize datatype
  let total_byte_size := total_batch_size * batch1_byte_size
  let buffer := List.replicate total_byte_size 0
  let r := setInputCopyLoop name batch1_byte_size total_byte_size payloads 0 buffer
  (Status.Success, r.1, ⟨input_dims, datatype, r.2⟩)

/-- A payload delivers its input content for `name` exactly when its chunks
join to precisely its expected byte count and its provider ends the stream
without an error. -/
def deliversExactly (p : Payload) (name : String) (batch1_byte_size : Nat) : Prop :=
  ((p.inputChunks name).flatten.length = p.batchSize * batch1_byte_size) ∧
    p.inputErr name = false

instance (p : Payload) (name : String) (b1 : Nat) :
    Decidable (deliversExactly p name b1) := by
  unfold deliversExactly; infer_instance

/-- Sum of the payload batch sizes: the `total_batch_size` accumulated at
line 314. -/
def totalBatchSize (payloads : List Payload) : Nat :=
  (payloads.map (fun p => p.batchSize)).sum

/-- Sum of the batch sizes of the payloads preceding index `i`. -/
def batchBefore (payloads : List Payload) (i : Nat) : Nat :=
  totalBatchSize (payloads.take i)

/-- Status produced at line 558-559 is the allocator status itself; status
produced at line 498 when a runtime output tensor slot is still null. -/
def outputNotFoundStatus (name : String) : Status :=
  ⟨RequestStatusCode.INTERNAL, "output tensor " ++ name ++ " does not found"⟩

/-- Status produced at line 530 when the combined output byte size computed
from the configured datatype differs from the one the runtime reported. -/
def outputSizeStatus (name : String) (actual total_batch batch1 : Nat) : Status :=
  ⟨RequestStatusCode.INTERNAL,
   "unexpected size for output " ++ name ++ ", byte-size " ++ toString actual ++
     " does not equal " ++ toString total_batch ++ " * " ++ toString batch1⟩

/-- Modelled from the spec: the status `GetOutput` (base class, not under
`src/`) returns when the named output is absent from the configuration. -/
def outputConfigMissingStatus (name : String) : Status :=
  ⟨RequestStatusCode.INVALID_ARG, "unexpected inference output " ++ name⟩

/-- The per-payload body of the distribution loop of `ReadOutputTensors`
(lines 540-564): if the payload's response provider requires this output,
request a buffer of its expected slice size and on success copy the slice of
the combined output at the running offset; on failure record the allocator
status on the payload. Payloads that do not require the output are left
untouched. -/
def distributePayload (name : String) (batch1_byte_size : Nat)
    (content : List Nat) (off : Nat) (p : Payload) : Payload :=
  let expected_byte_size := p.batchSize * batch1_byte_size
  if p.hasResponseProvider = true ∧ p.requiresOutput name = true then
    let st := p.allocStatus name expected_byte_size
    if st.IsOk then
      { p with allocLog := p.allocLog ++ [(name, expected_byte_size)],
               received := p.received ++
                 [(name, extractSeg content off expected_byte_size)] }
    else
      { p with allocLog := p.allocLog ++ [(name, expected_byte_size)],
               status := st }
  else p

/-- The distribution loop of `ReadOutputTensors` (lines 538-564): walk the
payloads in order; the read offset advances by each payload's expected slice
size whether or not it consumed the output. -/
def readOutputLoop (name : String) (batch1_byte_size : Nat) (content : List Nat) :
    List Payload → Nat → List Payload
  | [], _ => []
  | p :: rest, off =>
    distributePayload name batch1_byte_size content off p ::
      readOutputLoop name batch1_byte_size content rest
        (off + p.batchSize * batch1_byte_size)

/-- The per-output body of `ReadOutputTensors` (lines 490-564): look the
output up in the model configuration, require the runtime to have produced
the tensor, compare the combined byte size computed with the configured
datatype against the one computed with the runtime-reported element type,
and on success distribute the slices over the payloads. -/
def readOneOutput (cfg : ModelConfig) (total_batch_size : Nat) (name : String)
    (output_tensor : Option OrtTensor) (payloads : List Payload) :
    Except Status (List Payload) :=
  match GetOutput cfg name with
  | none => .error (outputConfigMissingStatus name)
  | some output_config =>
    match output_tensor with
    | none => .error (outputNotFoundStatus name)
    | some t =>
      let element_count := GetElementCount t.dims
      let total_byte_size := element_count * GetDataTypeByteSize t.elemType
      let actual_byte_size :=
        element_count * GetDataTypeByteSize output_config.data_type
      let batch1_byte_size := total_byte_size / total_batch_size
      if actual_byte_size ≠ total_byte_size then
        .error (outputSizeStatus name actual_byte_size total_batch_size batch1_byte_size)
      else
        .ok (readOutputLoop name batch1_byte_size t.data payloads 0)

/-- Embeds `OnnxBackend::Context::ReadOutputTensors` (lines 484-567): process the
runtime outputs in declared order; the first whole-run error is returned,
with the payload mutations of the already-processed outputs kept. -/
def ReadOutputTensors (cfg : ModelConfig) (total_batch_size : Nat) :
    List (String × Option OrtTensor) → List Payload → Status × List Payload
  | [], payloads => (Status.Success, payloads)
  | (name, ot) :: rest, payloads =>
    match readOneOutput cfg total_batch_size name ot payloads with
    | .error st => (st, payloads)
    | .ok payloads' => ReadOutputTensors cfg total_batch_size rest payloads'

/-- The argument record of one `OrtRun` call (line 381-384): the ordered
input names, the ordered input tensors, and the ordered output names. -/
structure RunCall where
  inputNames : List String
  inputTensors : List OrtTensor
  outputNames : List String
  deriving DecidableEq, Repr

/-- Result of one `Context::Run`: its returned status, the payload list
after the run, the `OrtRun` invocations it issued, and the per-run
`input_tensors_` / `output_tensors_` member state at return. -/
structure RunOutcome where
  status : Status
  payloads : List Payload
  runtimeCalls : List RunCall
  inputTensors : List OrtTensor
  outputTensors : List (Option OrtTensor)

/-- Status produced at lines 308-311 when a payload reaches the runner with
a non-OK status. -/
def nonOkPayloadStatus : Status :=
  ⟨RequestStatusCode.INTERNAL,
   "unexpected payload with non-OK status given to runner"⟩

/-- Status produced at lines 331-334 on a batch-size violation. -/
def batchSizeViolationStatus (total_batch_size max_batch_size : Nat) : Status :=
  ⟨RequestStatusCode.INTERNAL,
   "dynamic batch size " ++ toString total_batch_size ++
     ", max allowed is " ++ toString max_batch_size⟩

/-- Modelled from the spec: the status `GetInput` (base class, not under
`src/`) returns when the named input is absent from the configuration. -/
def inputConfigMissingStatus (name : String) : Status :=
  ⟨RequestStatusCode.INVALID_ARG, "unexpected inference input " ++ name⟩

/-- The status `RETURN_IF_ORT_ERROR` builds from a failing `OrtRun`. -/
def ortRunFailedStatus (e : String) : Status :=
  ⟨RequestStatusCode.INTERNAL, "onnx runtime error: " ++ e⟩

/-- The declared-input assembly loop of `Context::Run` (lines 343-355): for
each input of the representative request header, look its configuration up
(`RETURN_IF_ERROR(base->GetInput(...))` aborts the run) and assemble its
batched tensor. Returns the error status if any, the updated payloads, and
the (name, tensor) pairs appended to `input_names` / `input_tensors_` so
far (kept also on the error path, as the member vectors are). -/
def assembleDeclared (max_batch_size total_batch_size : Nat) (cfg : ModelConfig) :
    List (String × List Nat) → List Payload →
    Option Status × List Payload × List (String × OrtTensor)
  | [], payloads => (none, payloads, [])
  | (name, dims) :: rest, payloads =>
    match GetInput cfg name with
    | none => (some (inputConfigMissingStatus name), payloads, [])
    | some input_config =>
      let r := SetInputTensor max_batch_size name input_config.data_type dims
        total_batch_size payloads
      let rr := assembleDeclared max_batch_size total_batch_size cfg rest r.2.1
      (rr.1, rr.2.1, (name, r.2.2) :: rr.2.2)

/-- The override assembly loop of `Context::Run` (lines 357-370): assemble a
tensor for each entry of the representative provider's input override map
(a null map and an empty map are indistinguishable here). -/
def assembleOverrides (max_batch_size total_batch_size : Nat) :
    List InputOverride → List Payload → List Payload × List (String × OrtTensor)
  | [], payloads => (payloads, [])
  | ov :: rest, payloads =>
    let r := SetInputTensor max_batch_size ov.name ov.datatype ov.dims
      total_batch_size payloads
    let rr := assembleOverrides max_batch_size total_batch_size rest r.2.1
    (rr.1, (ov.name, r.2.2) :: rr.2)

/-- Embeds `OnnxBackend::Context::Run` (lines 292-389). The payload loop (306-319)
fails the run on any non-OK payload and leaves the last payload as the
representative request provider; a zero total batch size returns success
without touching the runtime (324-326); a total batch size other than one
exceeding the maximum fails the run (330-335); otherwise the declared inputs
of the representative header and the representative's input overrides are
assembled, and `OrtRun` is invoked once with all configured output names
(372-384), its behaviour supplied by the oracle `rt`; finally the outputs
are distributed. -/
def contextRun (max_batch_size : Nat) (cfg : ModelConfig)
    (rt : RunCall → Except String (List (Option OrtTensor)))
    (payloads : List Payload) : RunOutcome :=
  if payloads.all (fun p => p.status.IsOk) = false then
    ⟨nonOkPayloadStatus, payloads, [], [], []⟩
  else
    let total_batch_size := totalBatchSize payloads
    if total_batch_size = 0 then
      ⟨Status.Success, payloads, [], [], []⟩
    else if total_batch_size ≠ 1 ∧ total_batch_size > max_batch_size then
      ⟨batchSizeViolationStatus total_batch_size max_batch_size, payloads, [], [], []⟩
    else
      let input_request_provider := payloads.getLast?.getD default
      let ra := assembleDeclared max_batch_size total_batch_size cfg
        input_request_provider.headerInputs payloads
      match ra.1 with
      | some st => ⟨st, ra.2.1, [], (ra.2.2.map Prod.snd), []⟩
      | none =>
        let ro := assembleOverrides max_batch_size total_batch_size
          input_request_provider.overrides ra.2.1
        let inputs := ra.2.2 ++ ro.2
        let output_names := cfg.output.map (fun o => o.name)
        let call : RunCall :=
          ⟨inputs.map Prod.fst, inputs.map Prod.snd, output_names⟩
        match rt call with
        | .error e =>
          ⟨ortRunFailedStatus e, ro.1, [call], inputs.map Prod.snd,
           List.replicate output_names.length none⟩
        | .ok res =>
          let output_tensors :=
            (res ++ List.replicate output_names.length none).take output_names.length
          let rd := ReadOutputTensors cfg total_batch_size
            (List.zip output_names output_tensors) ro.1
          ⟨rd.1, rd.2, [call], inputs.map Prod.snd, output_tensors⟩

/-- Embeds `OnnxBackend::Context` persistent and per-run state: device binding,
maximum batch size (`NO_BATCHING` is `0`), the session and allocator-info
handles (opaque identifiers here), and the per-run tensor handle lists. -/
structure Context where
  gpu_device : Int
  max_batch_size : Nat
  session : Nat
  allocator_info : Nat
  input_tensors : List OrtTensor
  output_tensors : List (Option OrtTensor)

/-- Embeds `OnnxBackend::Context::ReleaseOrtRunResources` (lines 569-587): release
every non-null per-run tensor handle (`OrtReleaseValue` is external; the
observable effect is on the lists) and clear both lists. -/
def ReleaseOrtRunResources (c : Context) : Context :=
  { c with input_tensors := [], output_tensors := [] }

/-- Observable events of one `OnnxBackend::Run` dispatch, in order. -/
inductive RunEvent where
  | contextRan
  | releasedRunResources
  | completionCalled (st : Status)

/-- Status produced at lines 265-268 for an out-of-range runner index. -/
def badRunnerIndexStatus (runner_idx cnt : Nat) : Status :=
  ⟨RequestStatusCode.INTERNAL,
   "unexpected runner index" ++ toString runner_idx ++ ", max allowed " ++
     toString cnt⟩

/-- Embeds `OnnxBackend::Run` (lines 258-290): reject an out-of-range runner index
through the completion callback; otherwise run the matching context, release
its per-run resources regardless of the run status, and invoke
`OnCompleteQueuedPayloads` with the run status. Returns the context list and
payloads after the dispatch and the ordered event trace;
`completionCalled` events record each callback invocation. -/
def onnxBackendRun (cfg : ModelConfig)
    (rt : RunCall → Except String (List (Option OrtTensor)))
    (contexts : List Context) (runner_idx : Nat) (payloads : List Payload) :
    List Context × List Payload × List RunEvent :=
  match contexts.get? runner_idx with
  | none =>
    (contexts, payloads,
     [RunEvent.completionCalled (badRunnerIndexStatus runner_idx contexts.length)])
  | some ctx =>
    let outcome := contextRun ctx.max_batch_size cfg rt payloads
    let ctxAfter := { ctx with input_tensors := outcome.inputTensors,
                               output_tensors := outcome.outputTensors }
    let ctxReleased := ReleaseOrtRunResources ctxAfter
    (contexts.set runner_idx ctxReleased, outcome.payloads,
     [RunEvent.contextRan, RunEvent.releasedRunResources,
      RunEvent.completionCalled outcome.status])

/-- The per-item ("batch-1") byte size `SetInputTensor` computes at lines
402-415: product of the non-batch dimensions times the datatype size. -/
def batch1ByteSize (datatype : DataType) (dims : List Nat) : Nat :=
  (dims.foldl (fun a d => a * d) 1) * GetDataTypeByteSize datatype

/-- True exactly for a completion-callback event. -/
def isCompletionEvent : RunEvent → Bool
  | RunEvent.completionCalled _ => true
  | _ => false

/-- Concrete payloads for the closed instances below: an OK payload of
batch size `bs` delivering `bytes` for input `INPUT0` in two chunks, and
requiring output `OUTPUT0`. -/
def wPayload (bs : Nat) (bytes : List Nat) : Payload :=
  { status := Status.Success, batchSize := bs,
    headerInputs := [("INPUT0", [3])], overrides := [],
    inputChunks := fun nm =>
      if nm == "INPUT0" then [bytes.take 4, bytes.drop 4] else [],
    inputErr := fun _ => false,
    hasResponseProvider := true,
    requiresOutput := fun nm => nm == "OUTPUT0",
    allocStatus := fun _ _ => Status.Success, allocLog := [], received := [] }

/-- A payload whose response-provider allocation always fails. -/
def wAllocFailPayload : Payload :=
  { wPayload 1 (List.range 12) with
      allocStatus := fun nm _ =>
        ⟨RequestStatusCode.INTERNAL, "failed to allocate buffer for " ++ nm⟩ }

/-- The pre-failed payload of the C4 counterexample and C5 witness: its
status is non-OK before it reaches the runner and its batch size is zero, so
the total batch size of its dispatch is zero under any reading. -/
def cxFailedPayload : Payload :=
  { wPayload 0 [] with status := ⟨RequestStatusCode.INTERNAL, "prior error"⟩ }

/-- The trivial runtime oracle used by closed `contextRun` instances. -/
def cxRt : RunCall → Except String (List (Option OrtTensor)) :=
  fun _ => .ok []

/-- Configuration used by the C7 instances: one output of datatype INT8 with
configured shape `[3]`. -/
def cx7cfg : ModelConfig := ⟨[], [⟨"OUTPUT0", DataType.TYPE_INT8, [3]⟩]⟩

/-- A runtime output tensor of 3 INT8 bytes for a total batch size of 2. -/
def cx7tensor : OrtTensor := ⟨[3], DataType.TYPE_INT8, [7, 8, 9]⟩

/-- Configuration used by the C7 witness: one output whose configured
datatype INT32 disagrees in byte size with the runtime element type INT8. -/
def cx7bcfg : ModelConfig := ⟨[], [⟨"OUTPUT0", DataType.TYPE_INT32, [3]⟩]⟩

/-- Configuration of the C8 witness: one declared input and one declared
output. -/
def cx8cfg : ModelConfig :=
  ⟨[⟨"INPUT0", DataType.TYPE_FP32, [3]⟩], [⟨"OUTPUT0", DataType.TYPE_FP32, [3]⟩]⟩

/-- A payload supplying an input override, used to refute C10 as stated. -/
def cxOverridePayload : Payload :=
  { wPayload 1 (List.range 12) with
      headerInputs := [],
      overrides := [⟨"EXTRA", DataType.TYPE_FP32, [1]⟩] }

/-- A payload supplying no input override. -/
def cxPlainPayload : Payload :=
  { wPayload 1 (List.range 12) with headerInputs := [] }

/-- The context of the C9 witness: bound to the CPU sentinel device, with
leftover per-run tensor handles from a hypothetical previous state. -/
def cx9context : Context :=
  ⟨-1, 8, 41, 42, [⟨[1], DataType.TYPE_UINT8, [5]⟩], [none]⟩

theorem Status.Success_IsOk : Status.Success.IsOk = true := rfl

theorem totalBatchSize_nil : totalBatchSize [] = 0 := rfl

theorem totalBatchSize_cons (p : Payload) (rest : List Payload) :
    totalBatchSize (p :: rest) = p.batchSize + totalBatchSize rest := by
  simp [totalBatchSize]

theorem batchBefore_zero (payloads : List Payload) : batchBefore payloads 0 = 0 := rfl

theorem batchBefore_cons_succ (p : Payload) (rest : List Payload) (i : Nat) :
    batchBefore (p :: rest) (i + 1) = p.batchSize + batchBefore rest i := by
  simp [batchBefore, totalBatchSize]

theorem length_writeAt {buf data : List Nat} {off : Nat}
    (h : off + data.length ≤ buf.length) :
    (writeAt buf off data).length = buf.length := by
  simp only [writeAt, List.length_append, List.length_take, List.length_drop]
  omega

theorem writeAt_nil (buf : List Nat) (off : Nat) : writeAt buf off [] = buf := by
  simp [writeAt]

theorem take_writeAt {buf data : List Nat} {off k : Nat} (hk : k ≤ off)
    (hoff : off ≤ buf.length) :
    (writeAt buf off data).take k = buf.take k := by
  unfold writeAt
  rw [List.append_assoc, List.take_append_of_le_length, List.take_take,
    Nat.min_eq_left hk]
  simp only [List.length_take]
  omega

theorem take_eq_of_take_eq {a b : List Nat} {m n : Nat}
    (h : a.take n = b.take n) (hmn : m ≤ n) : a.take m = b.take m := by
  have ha : a.take m = (a.take n).take m := by
    rw [List.take_take, Nat.min_eq_left hmn]
  have hb : b.take m = (b.take n).take m := by
    rw [List.take_take, Nat.min_eq_left hmn]
  rw [ha, hb, h]

theorem writeAt_writeAt {buf d1 d2 : List Nat} {off : Nat}
    (h : off + d1.length ≤ buf.length) :
    writeAt (writeAt buf off d1) (off + d1.length) d2 = writeAt buf off (d1 ++ d2) := by
  have hlen : (buf.take off ++ d1).length = off + d1.length := by
    simp only [List.length_append, List.length_take]
    omega
  unfold writeAt
  rw [← List.append_assoc]
  rw [List.take_left' hlen]
  have hdrop : ∀ i, ((buf.take off ++ d1) ++ buf.drop (off + d1.length)).drop
      (off + d1.length + i) = buf.drop (off + d1.length + i) := by
    intro i
    have := @List.drop_append Nat (buf.take off ++ d1) (buf.drop (off + d1.length)) i
    rw [hlen] at this
    rw [this, List.drop_drop]
  rw [hdrop d2.length]
  simp only [List.append_assoc, List.length_append]
  rw [Nat.add_assoc]

theorem extractSeg_writeAt {buf data : List Nat} {off : Nat}
    (h : off + data.length ≤ buf.length) :
    extractSeg (writeAt buf off data) off data.length = data := by
  have hlen : (buf.take off).length = off := by
    simp only [List.length_take]; omega
  unfold extractSeg writeAt
  rw [List.append_assoc, List.drop_left' hlen, List.take_left]

theorem extractSeg_of_take_eq {a b : List Nat} {n off len : Nat}
    (h : a.take n = b.take n) (hle : off + len ≤ n) :
    extractSeg a off len = extractSeg b off len := by
  have key : ∀ l : List Nat, (l.drop off).take len = ((l.take n).drop off).take len := by
    intro l
    rw [List.drop_take, List.take_take, Nat.min_eq_left (by omega)]
  unfold extractSeg
  rw [key a, key b, h]

theorem unexpectedSizeStatus_not_ok (g : Nat) (n : String) (e : Nat) :
    (unexpectedSizeStatus g n e).IsOk = false := rfl

theorem shortDeliveryStatus_not_ok (e : Nat) (n : String) (g : Nat) :
    (shortDeliveryStatus e n g).IsOk = false := rfl

theorem providerErrorStatus_not_ok (n : String) :
    (providerErrorStatus n).IsOk = false := rfl

theorem copyChunks_exact (name : String) (total off : Nat) :
    ∀ (chunks : List (List Nat)) (st : Status) (buf : List Nat) (copied : Nat),
      st.IsOk = true → buf.length = total →
      off + copied + chunks.flatten.length ≤ total →
      copyChunks name total off chunks false st buf copied =
        (st, writeAt buf (off + copied) chunks.flatten, copied + chunks.flatten.length) := by
  intro chunks
  induction chunks with
  | nil =>
    intro st buf copied hok _ _
    simp [copyChunks, hok, writeAt_nil]
  | cons c rest ih =>
    intro st buf copied hok hlen hb
    rw [List.flatten_cons, List.length_append] at hb
    have hcl : off + copied + c.length ≤ total := by omega
    have hguard : ¬ (total < off + copied + c.length) := by omega
    have hlen' : (writeAt buf (off + copied) c).length = total := by
      rw [length_writeAt (by omega)]; exact hlen
    have hrec := ih st (writeAt buf (off + copied) c) (copied + c.length) hok hlen'
      (by omega)
    simp only [copyChunks, hok, Bool.true_eq_false, if_false, if_neg hguard]
    have hw : writeAt (writeAt buf (off + copied) c) (off + copied + c.length)
        rest.flatten = writeAt buf (off + copied) (c ++ rest.flatten) :=
      writeAt_writeAt (by omega)
    have hassoc : off + (copied + c.length) = off + copied + c.length := by omega
    rw [hrec, hassoc, hw, List.flatten_cons, List.length_append]
    have h2 : copied + c.length + rest.flatten.length =
        copied + (c.length + rest.flatten.length) := by omega
    rw [h2]

theorem copyChunks_frame (name : String) (total off : Nat) :
    ∀ (chunks : List (List Nat)) (errAfter : Bool) (st : Status) (buf : List Nat)
      (copied : Nat), buf.length = total →
      (copyChunks name total off chunks errAfter st buf copied).2.1.length = total ∧
      (copyChunks name total off chunks errAfter st buf copied).2.1.take (off + copied) =
        buf.take (off + copied) := by
  intro chunks
  induction chunks with
  | nil =>
    intro errAfter st buf copied hlen
    by_cases hok : st.IsOk = false <;> by_cases he : errAfter <;>
      simp [copyChunks, hok, he, hlen]
  | cons c rest ih =>
    intro errAfter st buf copied hlen
    by_cases hok : st.IsOk = false
    · simp [copyChunks, hok, hlen]
    · by_cases hguard : total < off + copied + c.length
      · simp [copyChunks, hok, hguard, hlen]
      · have hok' : st.IsOk = true := by
          revert hok; cases st.IsOk <;> simp
        have hcl : off + copied + c.length ≤ total := by omega
        have hlen' : (writeAt buf (off + copied) c).length = total := by
          rw [length_writeAt (by omega)]; exact hlen
        have hrec := ih errAfter st (writeAt buf (off + copied) c)
          (copied + c.length) hlen'
        simp only [copyChunks, hok', Bool.true_eq_false, if_false, if_neg hguard]
        refine ⟨hrec.1, ?_⟩
        have h1 : (copyChunks name total off rest errAfter st
            (writeAt buf (off + copied) c) (copied + c.length)).2.1.take (off + copied) =
            (writeAt buf (off + copied) c).take (off + copied) := by
          have := hrec.2
          rw [← Nat.add_assoc] at this
          exact take_eq_of_take_eq this (by omega)
        rw [h1]
        exact take_writeAt (Nat.le_refl _) (by omega)

theorem copyChunks_status (name : String) (total off : Nat) :
    ∀ (chunks : List (List Nat)) (errAfter : Bool) (st : Status) (buf : List Nat)
      (copied : Nat), st.IsOk = true →
      (copyChunks name total off chunks errAfter st buf copied).1.IsOk = true →
      (copyChunks name total off chunks errAfter st buf copied).1 = st ∧
      (copyChunks name total off chunks errAfter st buf copied).2.2 =
        copied + chunks.flatten.length ∧
      errAfter = false := by
  intro chunks
  induction chunks with
  | nil =>
    intro errAfter st buf copied hok hres
    by_cases he : errAfter
    · simp [copyChunks, hok, he, providerErrorStatus_not_ok] at hres
    · simp [copyChunks, hok, he]
  | cons c rest ih =>
    intro errAfter st buf copied hok hres
    by_cases hguard : total < off + copied + c.length
    · simp [copyChunks, hok, hguard, unexpectedSizeStatus_not_ok] at hres
    · simp only [copyChunks, hok, Bool.true_eq_false, if_false, if_neg hguard] at hres ⊢
      have hrec := ih errAfter st (writeAt buf (off + copied) c) (copied + c.length)
        hok hres
      refine ⟨hrec.1, ?_, hrec.2.2⟩
      rw [hrec.2.1, List.flatten_cons, List.length_append]
      omega

theorem setInputPayload_exact {name : String} {b1 total off : Nat} {p : Payload}
    {buf : List Nat} (hok : p.status.IsOk = true)
    (hex : deliversExactly p name b1) (hlen : buf.length = total)
    (hbound : off + p.batchSize * b1 ≤ total) :
    setInputPayload name b1 total off p buf =
      (p, writeAt buf off (p.inputChunks name).flatten, off + p.batchSize * b1) := by
  obtain ⟨hflat, herr⟩ := hex
  unfold setInputPayload
  rw [herr]
  rw [copyChunks_exact name total off (p.inputChunks name) p.status buf 0 hok hlen
    (by omega)]
  simp only [hflat, hok, Nat.zero_add, Nat.add_zero, ne_eq, not_true_eq_false,
    and_false, if_false, true_and]

theorem setInputPayload_frame {name : String} {b1 total off : Nat} {p : Payload}
    {buf : List Nat} (hlen : buf.length = total) :
    (setInputPayload name b1 total off p buf).2.1.length = total ∧
    (setInputPayload name b1 total off p buf).2.1.take off = buf.take off ∧
    (setInputPayload name b1 total off p buf).2.2 = off + p.batchSize * b1 := by
  unfold setInputPayload
  have hframe := copyChunks_frame name total off (p.inputChunks name)
    (p.inputErr name) p.status buf 0 hlen
  rw [Nat.add_zero] at hframe
  exact ⟨hframe.1, hframe.2, rfl⟩

theorem setInputPayload_fail {name : String} {b1 total off : Nat} {p : Payload}
    {buf : List Nat} (hok : p.status.IsOk = true)
    (hnex : ¬ deliversExactly p name b1) :
    ((setInputPayload name b1 total off p buf).1).status.IsOk = false := by
  unfold setInputPayload
  by_cases hr : (copyChunks name total off (p.inputChunks name) (p.inputErr name)
      p.status buf 0).1.IsOk = true
  · have hst := copyChunks_status name total off (p.inputChunks name)
      (p.inputErr name) p.status buf 0 hok hr
    have hflatne : (p.inputChunks name).flatten.length ≠ p.batchSize * b1 := by
      intro hc
      exact hnex ⟨hc, hst.2.2⟩
    have hcopied : (copyChunks name total off (p.inputChunks name) (p.inputErr name)
        p.status buf 0).2.2 ≠ p.batchSize * b1 := by
      rw [hst.2.1, Nat.zero_add]; exact hflatne
    simp only [hr, hcopied, ne_eq, not_false_eq_true, and_self, if_true, true_and]
    simp [shortDeliveryStatus_not_ok]
  · have hr' : (copyChunks name total off (p.inputChunks name) (p.inputErr name)
        p.status buf 0).1.IsOk = false := by
      revert hr
      cases (copyChunks name total off (p.inputChunks name) (p.inputErr name)
        p.status buf 0).1.IsOk <;> simp
    simp only [hr', Bool.false_eq_true, false_and, if_false]

theorem setInputCopyLoop_spec (name : String) (b1 total : Nat) :
    ∀ (ps : List Payload) (off : Nat) (buf : List Nat),
      buf.length = total →
      off + totalBatchSize ps * b1 ≤ total →
      (∀ p ∈ ps, p.status.IsOk = true) →
      (setInputCopyLoop name b1 total ps off buf).2.length = total ∧
      (setInputCopyLoop name b1 total ps off buf).2.take off = buf.take off ∧
      (∀ i p, ps.get? i = some p → deliversExactly p name b1 →
        (setInputCopyLoop name b1 total ps off buf).1.get? i = some p ∧
        extractSeg (setInputCopyLoop name b1 total ps off buf).2
          (off + batchBefore ps i * b1) (p.batchSize * b1) =
          (p.inputChunks name).flatten) ∧
      (∀ i p, ps.get? i = some p → ¬ deliversExactly p name b1 →
        ∃ q, (setInputCopyLoop name b1 total ps off buf).1.get? i = some q ∧
          q.status.IsOk = false) := by
  intro ps
  induction ps with
  | nil =>
    intro off buf hlen _ _
    refine ⟨hlen, rfl, ?_, ?_⟩ <;> intro i p hp <;> simp [List.get?] at hp
  | cons p rest ih =>
    intro off buf hlen hbound hok
    have hokp : p.status.IsOk = true := hok p (List.mem_cons_self p rest)
    have hokr : ∀ q ∈ rest, q.status.IsOk = true := fun q hq =>
      hok q (List.mem_cons_of_mem p hq)
    rw [totalBatchSize_cons, Nat.add_mul] at hbound
    have hboundp : off + p.batchSize * b1 ≤ total := by omega
    have hframe := @setInputPayload_frame name b1 total off p buf hlen
    have hlen1 : (setInputPayload name b1 total off p buf).2.1.length = total :=
      hframe.1
    have hoff1 : (setInputPayload name b1 total off p buf).2.2 =
        off + p.batchSize * b1 := hframe.2.2
    have hbound1 : (off + p.batchSize * b1) + totalBatchSize rest * b1 ≤ total := by
      omega
    have hrec := ih (off + p.batchSize * b1)
      (setInputPayload name b1 total off p buf).2.1 hlen1 hbound1 hokr
    simp only [setInputCopyLoop]
    rw [hoff1]
    refine ⟨hrec.1, ?_, ?_, ?_⟩
    · have h1 := take_eq_of_take_eq hrec.2.1 (Nat.le_add_right off (p.batchSize * b1))
      rw [h1]
      exact hframe.2.1
    · intro i q hq hexq
      match i, hq with
      | 0, hq =>
        have hpq : q = p := by
          simp [List.get?] at hq; exact hq.symm
        subst hpq
        have hx := setInputPayload_exact hokp hexq hlen hboundp
        constructor
        · simp [List.get?, hx]
        · rw [batchBefore_zero, Nat.zero_mul, Nat.add_zero]
          have hflatlen : (q.inputChunks name).flatten.length = q.batchSize * b1 :=
            hexq.1
          have hseg1 : extractSeg (setInputCopyLoop name b1 total rest
              (off + q.batchSize * b1) (setInputPayload name b1 total off q buf).2.1).2
              off (q.batchSize * b1) =
              extractSeg (setInputPayload name b1 total off q buf).2.1 off
                (q.batchSize * b1) :=
            extractSeg_of_take_eq hrec.2.1 (Nat.le_refl _)
          rw [hseg1, hx]
          have := @extractSeg_writeAt buf ((q.inputChunks name).flatten)
            off (by rw [hflatlen]; omega)
          rw [hflatlen] at this
          exact this
      | Nat.succ i, hq =>
        have hq' : rest.get? i = some q := hq
        have hr := hrec.2.2.1 i q hq' hexq
        constructor
        · simpa [List.get?] using hr.1
        · rw [batchBefore_cons_succ, Nat.add_mul, ← Nat.add_assoc]
          exact hr.2
    · intro i q hq hnexq
      match i, hq with
      | 0, hq =>
        have hpq : q = p := by
          simp [List.get?] at hq; exact hq.symm
        subst hpq
        refine ⟨(setInputPayload name b1 total off q buf).1, by simp [List.get?], ?_⟩
        exact setInputPayload_fail hokp hnexq
      | Nat.succ i, hq =>
        have hq' : rest.get? i = some q := hq
        have hr := hrec.2.2.2 i q hq' hnexq
        obtain ⟨w, hw1, hw2⟩ := hr
        exact ⟨w, by simpa [List.get?] using hw1, hw2⟩

theorem SetInputTensor_eq (max_batch_size : Nat) (name : String)
    (datatype : DataType) (dims : List Nat) (total_batch_size : Nat)
    (payloads : List Payload) :
    SetInputTensor max_batch_size name datatype dims total_batch_size payloads =
      (Status.Success,
       (setInputCopyLoop name (batch1ByteSize datatype dims)
         (total_batch_size * batch1ByteSize datatype dims) payloads 0
         (List.replicate (total_batch_size * batch1ByteSize datatype dims) 0)).1,
       ⟨(if max_batch_size ≠ 0 then [total_batch_size] else []) ++ dims, datatype,
        (setInputCopyLoop name (batch1ByteSize datatype dims)
          (total_batch_size * batch1ByteSize datatype dims) payloads 0
          (List.replicate (total_batch_size * batch1ByteSize datatype dims) 0)).2⟩) :=
  rfl

/-- C1: for a dispatch of payloads with batch sizes summing to `B` with
`1 ≤ B ≤ max batch size`, `SetInputTensor` assembles for the input name one
contiguous buffer of exactly `B * batch1ByteSize` bytes holding payload
`i`'s content at byte offset `(Σ over j < i of bj) * batch1ByteSize`,
payloads visited in the scheduler-supplied order; with no batching support
(`max_batch_size = 0`) the tensor shape carries no batch dimension, and with
batching support it is the batch dimension followed by the non-batch
dimensions. -/
theorem claim_C1_setInputTensor_concatenates (max_batch_size : Nat)
    (name : String) (datatype : DataType) (dims : List Nat)
    (payloads : List Payload)
    (hok : ∀ p ∈ payloads, p.status.IsOk = true)
    (hex : ∀ p ∈ payloads, deliversExactly p name (batch1ByteSize datatype dims))
    (hB1 : 1 ≤ totalBatchSize payloads)
    (hBmax : max_batch_size = 0 ∨ totalBatchSize payloads ≤ max_batch_size) :
    (SetInputTensor max_batch_size name datatype dims (totalBatchSize payloads)
        payloads).1 = Status.Success ∧
    (SetInputTensor max_batch_size name datatype dims (totalBatchSize payloads)
        payloads).2.2.data.length =
      totalBatchSize payloads * batch1ByteSize datatype dims ∧
    (SetInputTensor max_batch_size name datatype dims (totalBatchSize payloads)
        payloads).2.2.dims =
      (if max_batch_size = 0 then dims else totalBatchSize payloads :: dims) ∧
    (∀ i p, payloads.get? i = some p →
      (SetInputTensor max_batch_size name datatype dims (totalBatchSize payloads)
          payloads).2.1.get? i = some p ∧
      extractSeg (SetInputTensor max_batch_size name datatype dims
          (totalBatchSize payloads) payloads).2.2.data
        (batchBefore payloads i * batch1ByteSize datatype dims)
        (p.batchSize * batch1ByteSize datatype dims) =
        (p.inputChunks name).flatten) := by
  have hspec := setInputCopyLoop_spec name (batch1ByteSize datatype dims)
    (totalBatchSize payloads * batch1ByteSize datatype dims) payloads 0
    (List.replicate (totalBatchSize payloads * batch1ByteSize datatype dims) 0)
    (List.length_replicate _ _) (by omega) hok
  rw [SetInputTensor_eq]
  refine ⟨rfl, hspec.1, ?_, ?_⟩
  · by_cases hm : max_batch_size = 0 <;> simp [hm]
  · intro i p hp
    have hmem : p ∈ payloads := List.get?_mem hp
    have hr := hspec.2.2.1 i p hp (hex p hmem)
    rw [Nat.zero_add] at hr
    exact hr

theorem claim_C1_witness :
    (∀ p ∈ [wPayload 2 (List.range 24), wPayload 1 ((List.range 12).map (fun x => x + 50))],
      p.status.IsOk = true) ∧
    (∀ p ∈ [wPayload 2 (List.range 24), wPayload 1 ((List.range 12).map (fun x => x + 50))],
      deliversExactly p "INPUT0" (batch1ByteSize DataType.TYPE_FP32 [3])) ∧
    1 ≤ totalBatchSize [wPayload 2 (List.range 24),
      wPayload 1 ((List.range 12).map (fun x => x + 50))] ∧
    ((8 : Nat) = 0 ∨ totalBatchSize [wPayload 2 (List.range 24),
      wPayload 1 ((List.range 12).map (fun x => x + 50))] ≤ 8) ∧
    (∀ i p, [wPayload 2 (List.range 24),
        wPayload 1 ((List.range 12).map (fun x => x + 50))].get? i = some p →
      (SetInputTensor 8 "INPUT0" DataType.TYPE_FP32 [3]
          (totalBatchSize [wPayload 2 (List.range 24),
            wPayload 1 ((List.range 12).map (fun x => x + 50))])
          [wPayload 2 (List.range 24),
           wPayload 1 ((List.range 12).map (fun x => x + 50))]).2.1.get? i = some p ∧
      extractSeg (SetInputTensor 8 "INPUT0" DataType.TYPE_FP32 [3]
          (totalBatchSize [wPayload 2 (List.range 24),
            wPayload 1 ((List.range 12).map (fun x => x + 50))])
          [wPayload 2 (List.range 24),
           wPayload 1 ((List.range 12).map (fun x => x + 50))]).2.2.data
        (batchBefore [wPayload 2 (List.range 24),
          wPayload 1 ((List.range 12).map (fun x => x + 50))] i *
            batch1ByteSize DataType.TYPE_FP32 [3])
        (p.batchSize * batch1ByteSize DataType.TYPE_FP32 [3]) =
        (p.inputChunks "INPUT0").flatten) :=
  ⟨by decide, by decide, by decide, by decide,
   (claim_C1_setInputTensor_concatenates 8 "INPUT0" DataType.TYPE_FP32 [3]
     [wPayload 2 (List.range 24), wPayload 1 ((List.range 12).map (fun x => x + 50))]
     (by decide) (by decide) (by decide) (by decide)).2.2.2⟩

/-- C6: during input assembly, a payload that overruns the buffer or fails
to deliver exactly its expected byte count is the only payload whose status
becomes failed; `SetInputTensor` still returns success, the remaining
payloads are assembled unchanged, and — because the write offset advances by
the failed payload's expected byte count — every sibling payload's content
sits at its nominal offset in the buffer. -/
theorem claim_C6_setInputTensor_isolates_bad_payload (max_batch_size : Nat)
    (name : String) (datatype : DataType) (dims : List Nat)
    (payloads : List Payload) (i : Nat) (p : Payload)
    (hok : ∀ q ∈ payloads, q.status.IsOk = true)
    (hp : payloads.get? i = some p)
    (hbad : ¬ deliversExactly p name (batch1ByteSize datatype dims))
    (hsib : ∀ j q, payloads.get? j = some q → j ≠ i →
      deliversExactly q name (batch1ByteSize datatype dims)) :
    (SetInputTensor max_batch_size name datatype dims (totalBatchSize payloads)
        payloads).1 = Status.Success ∧
    (∃ q, (SetInputTensor max_batch_size name datatype dims
        (totalBatchSize payloads) payloads).2.1.get? i = some q ∧
      q.status.IsOk = false) ∧
    (∀ j q, payloads.get? j = some q → j ≠ i →
      (SetInputTensor max_batch_size name datatype dims (totalBatchSize payloads)
          payloads).2.1.get? j = some q ∧
      extractSeg (SetInputTensor max_batch_size name datatype dims
          (totalBatchSize payloads) payloads).2.2.data
        (batchBefore payloads j * batch1ByteSize datatype dims)
        (q.batchSize * batch1ByteSize datatype dims) =
        (q.inputChunks name).flatten) := by
  have hspec := setInputCopyLoop_spec name (batch1ByteSize datatype dims)
    (totalBatchSize payloads * batch1ByteSize datatype dims) payloads 0
    (List.replicate (totalBatchSize payloads * batch1ByteSize datatype dims) 0)
    (List.length_replicate _ _) (by omega) hok
  rw [SetInputTensor_eq]
  refine ⟨rfl, ?_, ?_⟩
  · exact hspec.2.2.2 i p hp hbad
  · intro j q hq hji
    have hr := hspec.2.2.1 j q hq (hsib j q hq hji)
    rw [Nat.zero_add] at hr
    exact hr

theorem claim_C6_witness :
    (∀ q ∈ [wPayload 2 (List.range 24), wPayload 1 (List.range 5),
        wPayload 1 ((List.range 12).map (fun x => x + 80))], q.status.IsOk = true) ∧
    [wPayload 2 (List.range 24), wPayload 1 (List.range 5),
      wPayload 1 ((List.range 12).map (fun x => x + 80))].get? 1 =
        some (wPayload 1 (List.range 5)) ∧
    (¬ deliversExactly (wPayload 1 (List.range 5)) "INPUT0"
      (batch1ByteSize DataType.TYPE_FP32 [3])) ∧
    (∀ j q, [wPayload 2 (List.range 24), wPayload 1 (List.range 5),
        wPayload 1 ((List.range 12).map (fun x => x + 80))].get? j = some q → j ≠ 1 →
      deliversExactly q "INPUT0" (batch1ByteSize DataType.TYPE_FP32 [3])) ∧
    ((SetInputTensor 8 "INPUT0" DataType.TYPE_FP32 [3]
        (totalBatchSize [wPayload 2 (List.range 24), wPayload 1 (List.range 5),
          wPayload 1 ((List.range 12).map (fun x => x + 80))])
        [wPayload 2 (List.range 24), wPayload 1 (List.range 5),
         wPayload 1 ((List.range 12).map (fun x => x + 80))]).1 = Status.Success ∧
    (∃ q, (SetInputTensor 8 "INPUT0" DataType.TYPE_FP32 [3]
        (totalBatchSize [wPayload 2 (List.range 24), wPayload 1 (List.range 5),
          wPayload 1 ((List.range 12).map (fun x => x + 80))])
        [wPayload 2 (List.range 24), wPayload 1 (List.range 5),
         wPayload 1 ((List.range 12).map (fun x => x + 80))]).2.1.get? 1 = some q ∧
      q.status.IsOk = false) ∧
    (∀ j q, [wPayload 2 (List.range 24), wPayload 1 (List.range 5),
        wPayload 1 ((List.range 12).map (fun x => x + 80))].get? j = some q → j ≠ 1 →
      (SetInputTensor 8 "INPUT0" DataType.TYPE_FP32 [3]
          (totalBatchSize [wPayload 2 (List.range 24), wPayload 1 (List.range 5),
            wPayload 1 ((List.range 12).map (fun x => x + 80))])
          [wPayload 2 (List.range 24), wPayload 1 (List.range 5),
           wPayload 1 ((List.range 12).map (fun x => x + 80))]).2.1.get? j = some q ∧
      extractSeg (SetInputTensor 8 "INPUT0" DataType.TYPE_FP32 [3]
          (totalBatchSize [wPayload 2 (List.range 24), wPayload 1 (List.range 5),
            wPayload 1 ((List.range 12).map (fun x => x + 80))])
          [wPayload 2 (List.range 24), wPayload 1 (List.range 5),
           wPayload 1 ((List.range 12).map (fun x => x + 80))]).2.2.data
        (batchBefore [wPayload 2 (List.range 24), wPayload 1 (List.range 5),
          wPayload 1 ((List.range 12).map (fun x => x + 80))] j *
            batch1ByteSize DataType.TYPE_FP32 [3])
        (q.batchSize * batch1ByteSize DataType.TYPE_FP32 [3]) =
        (q.inputChunks "INPUT0").flatten)) :=
  ⟨by decide, rfl, by decide,
   by intro j q hq hj
      match j, hq with
      | 0, hq => simp [List.get?] at hq; subst hq; decide
      | 1, hq => exact absurd rfl hj
      | 2, hq => simp [List.get?] at hq; subst hq; decide
      | n + 3, hq => simp [List.get?] at hq,
   claim_C6_setInputTensor_isolates_bad_payload 8 "INPUT0" DataType.TYPE_FP32 [3]
     [wPayload 2 (List.range 24), wPayload 1 (List.range 5),
      wPayload 1 ((List.range 12).map (fun x => x + 80))] 1
     (wPayload 1 (List.range 5)) (by decide) rfl (by decide)
     (by intro j q hq hj
         match j, hq with
         | 0, hq => simp [List.get?] at hq; subst hq; decide
         | 1, hq => exact absurd rfl hj
         | 2, hq => simp [List.get?] at hq; subst hq; decide
         | n + 3, hq => simp [List.get?] at hq)⟩

theorem readOutputLoop_get? (name : String) (b1 : Nat) (content : List Nat) :
    ∀ (ps : List Payload) (off0 i : Nat) (p : Payload),
      ps.get? i = some p →
      (readOutputLoop name b1 content ps off0).get? i =
        some (distributePayload name b1 content (off0 + batchBefore ps i * b1) p) := by
  intro ps
  induction ps with
  | nil => intro off0 i p hp; simp [List.get?] at hp
  | cons q rest ih =>
    intro off0 i p hp
    match i, hp with
    | 0, hp =>
      simp [List.get?] at hp
      subst hp
      simp [readOutputLoop, List.get?, batchBefore_zero]
    | Nat.succ n, hp =>
      have hr := ih (off0 + q.batchSize * b1) n p hp
      simp only [readOutputLoop, List.get?]
      rw [hr, batchBefore_cons_succ, Nat.add_mul, ← Nat.add_assoc]

/-- C2: in the distribution loop of `ReadOutputTensors`, payloads are walked
in the same fixed order used by input assembly, and payload `i`'s read
offset is the sum of the preceding payloads' slice sizes whether or not they
consumed the output. A payload whose response provider requires the output
has a buffer of exactly `batchSize * batch1_byte_size` bytes requested from
its allocator; on success its exact contiguous slice of the combined output
is copied to it; on allocation failure only that payload's status becomes
the (non-OK) allocator status — every other payload's outcome, given by this
same characterisation at its own index, is unaffected. A payload not
requiring the output is left untouched. -/
theorem claim_C2_output_distribution (name : String) (b1 : Nat)
    (content : List Nat) (ps : List Payload) (i : Nat) (p : Payload)
    (hp : ps.get? i = some p) :
    ((p.hasResponseProvider = true ∧ p.requiresOutput name = true) →
      ((p.allocStatus name (p.batchSize * b1)).IsOk = true →
        (readOutputLoop name b1 content ps 0).get? i = some
          { p with allocLog := p.allocLog ++ [(name, p.batchSize * b1)],
                   received := p.received ++
                     [(name, extractSeg content (batchBefore ps i * b1)
                        (p.batchSize * b1))] }) ∧
      ((p.allocStatus name (p.batchSize * b1)).IsOk = false →
        (readOutputLoop name b1 content ps 0).get? i = some
          { p with allocLog := p.allocLog ++ [(name, p.batchSize * b1)],
                   status := p.allocStatus name (p.batchSize * b1) })) ∧
    (¬ (p.hasResponseProvider = true ∧ p.requiresOutput name = true) →
      (readOutputLoop name b1 content ps 0).get? i = some p) := by
  have hget := readOutputLoop_get? name b1 content ps 0 i p hp
  rw [Nat.zero_add] at hget
  constructor
  · intro hreq
    constructor
    · intro hal
      rw [hget]
      unfold distributePayload
      rw [if_pos hreq, if_pos hal]
    · intro hal
      rw [hget]
      unfold distributePayload
      rw [if_pos hreq, if_neg (by rw [hal]; exact Bool.false_ne_true)]
  · intro hreq
    rw [hget]
    unfold distributePayload
    rw [if_neg hreq]

theorem claim_C2_witness :
    [wPayload 2 (List.range 24), wAllocFailPayload].get? 1 =
      some wAllocFailPayload ∧
    ((wAllocFailPayload.hasResponseProvider = true ∧
        wAllocFailPayload.requiresOutput "OUTPUT0" = true) →
      ((wAllocFailPayload.allocStatus "OUTPUT0"
          (wAllocFailPayload.batchSize * 3)).IsOk = true →
        (readOutputLoop "OUTPUT0" 3 (List.range 9)
            [wPayload 2 (List.range 24), wAllocFailPayload] 0).get? 1 = some
          { wAllocFailPayload with
              allocLog := wAllocFailPayload.allocLog ++
                [("OUTPUT0", wAllocFailPayload.batchSize * 3)],
              received := wAllocFailPayload.received ++
                [("OUTPUT0", extractSeg (List.range 9)
                   (batchBefore [wPayload 2 (List.range 24), wAllocFailPayload] 1 * 3)
                   (wAllocFailPayload.batchSize * 3))] }) ∧
      ((wAllocFailPayload.allocStatus "OUTPUT0"
          (wAllocFailPayload.batchSize * 3)).IsOk = false →
        (readOutputLoop "OUTPUT0" 3 (List.range 9)
            [wPayload 2 (List.range 24), wAllocFailPayload] 0).get? 1 = some
          { wAllocFailPayload with
              allocLog := wAllocFailPayload.allocLog ++
                [("OUTPUT0", wAllocFailPayload.batchSize * 3)],
              status := wAllocFailPayload.allocStatus "OUTPUT0"
                (wAllocFailPayload.batchSize * 3) })) ∧
    (¬ (wAllocFailPayload.hasResponseProvider = true ∧
        wAllocFailPayload.requiresOutput "OUTPUT0" = true) →
      (readOutputLoop "OUTPUT0" 3 (List.range 9)
          [wPayload 2 (List.range 24), wAllocFailPayload] 0).get? 1 =
        some wAllocFailPayload) :=
  ⟨rfl, claim_C2_output_distribution "OUTPUT0" 3 (List.range 9)
    [wPayload 2 (List.range 24), wAllocFailPayload] 1 wAllocFailPayload rfl⟩

theorem outputSizeStatus_not_ok (n : String) (a b c : Nat) :
    (outputSizeStatus n a b c).IsOk = false := rfl

theorem nonOkPayloadStatus_not_ok : nonOkPayloadStatus.IsOk = false := rfl

theorem batchSizeViolationStatus_not_ok (b m : Nat) :
    (batchSizeViolationStatus b m).IsOk = false := rfl

/-- C7 (amended): the size check of `ReadOutputTensors` compares the
combined byte size computed from the runtime-reported element type against
the one computed from the configured datatype, both over the element count
of the runtime-reported shape: for a configured output whose tensor the
runtime produced, the run fails exactly when those two products differ. The
configured output shape plays no part in the check, and divisibility of the
combined size by the total batch size is not verified. -/
theorem claim_C7_output_size_check (cfg : ModelConfig) (total_batch_size : Nat)
    (name : String) (t : OrtTensor) (payloads : List Payload)
    (oc : ModelOutput) (hoc : GetOutput cfg name = some oc) :
    (ReadOutputTensors cfg total_batch_size [(name, some t)] payloads).1.IsOk
        = false ↔
      GetElementCount t.dims * GetDataTypeByteSize oc.data_type ≠
        GetElementCount t.dims * GetDataTypeByteSize t.elemType := by
  by_cases hmis : GetElementCount t.dims * GetDataTypeByteSize oc.data_type ≠
      GetElementCount t.dims * GetDataTypeByteSize t.elemType
  · constructor
    · intro _
      exact hmis
    · intro _
      simp only [ReadOutputTensors, readOneOutput, hoc, if_pos hmis]
      rfl
  · constructor
    · intro h
      simp only [ReadOutputTensors, readOneOutput, hoc, if_neg hmis,
        Status.Success_IsOk] at h
      exact absurd h (by decide)
    · intro h
      exact absurd h hmis

theorem claim_C7_counterexample :
    (ReadOutputTensors cx7cfg 2 [("OUTPUT0", some cx7tensor)]
      [wPayload 2 (List.range 24)]).1 = Status.Success ∧
    GetElementCount cx7tensor.dims * GetDataTypeByteSize cx7tensor.elemType ≠
      2 * (GetElementCount (⟨"OUTPUT0", DataType.TYPE_INT8, [3]⟩ : ModelOutput).dims *
        GetDataTypeByteSize DataType.TYPE_INT8) ∧
    GetElementCount cx7tensor.dims * GetDataTypeByteSize cx7tensor.elemType ≠
      2 * ((GetElementCount cx7tensor.dims *
        GetDataTypeByteSize cx7tensor.elemType) / 2) := by
  refine ⟨?_, by decide, by decide⟩
  rfl

theorem claim_C7_witness :
    GetOutput cx7bcfg "OUTPUT0" = some ⟨"OUTPUT0", DataType.TYPE_INT32, [3]⟩ ∧
    ((ReadOutputTensors cx7bcfg 2 [("OUTPUT0", some cx7tensor)]
        [wPayload 2 (List.range 24)]).1.IsOk = false ↔
      GetElementCount cx7tensor.dims *
          GetDataTypeByteSize (⟨"OUTPUT0", DataType.TYPE_INT32, [3]⟩ : ModelOutput).data_type ≠
        GetElementCount cx7tensor.dims * GetDataTypeByteSize cx7tensor.elemType) :=
  ⟨by decide, claim_C7_output_size_check cx7bcfg 2 "OUTPUT0" cx7tensor
    [wPayload 2 (List.range 24)] ⟨"OUTPUT0", DataType.TYPE_INT32, [3]⟩ (by decide)⟩

/-- C5: a dispatch containing any payload whose status is already non-OK
when it reaches `Context::Run` fails the whole run with an internal error:
the terminal status is `INTERNAL` and not success. -/
theorem claim_C5_nonok_payload_fails_run (max_batch_size : Nat)
    (cfg : ModelConfig) (rt : RunCall → Except String (List (Option OrtTensor)))
    (payloads : List Payload)
    (hbad : ∃ p ∈ payloads, p.status.IsOk = false) :
    (contextRun max_batch_size cfg rt payloads).status.code =
        RequestStatusCode.INTERNAL ∧
    (contextRun max_batch_size cfg rt payloads).status.IsOk = false := by
  obtain ⟨p, hmem, hfalse⟩ := hbad
  have hall : payloads.all (fun q => q.status.IsOk) = false := by
    rw [List.all_eq_false]
    exact ⟨p, hmem, by rw [hfalse]; exact Bool.false_ne_true⟩
  simp only [contextRun, hall, if_pos rfl]
  exact ⟨rfl, rfl⟩

theorem claim_C5_witness :
    (∃ p ∈ [cxFailedPayload], p.status.IsOk = false) ∧
    ((contextRun 8 cx7cfg cxRt [cxFailedPayload]).status.code =
        RequestStatusCode.INTERNAL ∧
     (contextRun 8 cx7cfg cxRt [cxFailedPayload]).status.IsOk = false) :=
  ⟨⟨cxFailedPayload, List.mem_cons_self _ _, rfl⟩,
   claim_C5_nonok_payload_fails_run 8 cx7cfg cxRt [cxFailedPayload]
     ⟨cxFailedPayload, List.mem_cons_self _ _, rfl⟩⟩

/-- C3: a dispatch whose total batch size differs from one and exceeds the
context's maximum batch size fails the whole run before any runtime
invocation: the status is non-OK, no `OrtRun` call is issued, and the
payloads are returned unchanged (no partial result). -/
theorem claim_C3_batch_size_violation (max_batch_size : Nat)
    (cfg : ModelConfig) (rt : RunCall → Except String (List (Option OrtTensor)))
    (payloads : List Payload)
    (hne1 : totalBatchSize payloads ≠ 1)
    (hgt : totalBatchSize payloads > max_batch_size) :
    (contextRun max_batch_size cfg rt payloads).status.IsOk = false ∧
    (contextRun max_batch_size cfg rt payloads).runtimeCalls = [] ∧
    (contextRun max_batch_size cfg rt payloads).payloads = payloads := by
  by_cases hall : payloads.all (fun q => q.status.IsOk) = false
  · simp only [contextRun, hall, if_pos rfl]
    exact ⟨nonOkPayloadStatus_not_ok, rfl, rfl⟩
  · have hall' : payloads.all (fun q => q.status.IsOk) = true := by
      revert hall; cases payloads.all (fun q => q.status.IsOk) <;> simp
    have hB0 : totalBatchSize payloads ≠ 0 := by omega
    simp only [contextRun, hall', Bool.true_eq_false, if_false, if_neg hB0]
    rw [if_pos (And.intro hne1 hgt)]
    exact ⟨batchSizeViolationStatus_not_ok _ _, rfl, rfl⟩

theorem claim_C3_witness :
    totalBatchSize [wPayload 2 (List.range 24), wPayload 1 (List.range 12)] ≠ 1 ∧
    totalBatchSize [wPayload 2 (List.range 24), wPayload 1 (List.range 12)] > 2 ∧
    ((contextRun 2 cx7cfg cxRt
        [wPayload 2 (List.range 24), wPayload 1 (List.range 12)]).status.IsOk = false ∧
     (contextRun 2 cx7cfg cxRt
        [wPayload 2 (List.range 24), wPayload 1 (List.range 12)]).runtimeCalls = [] ∧
     (contextRun 2 cx7cfg cxRt
        [wPayload 2 (List.range 24), wPayload 1 (List.range 12)]).payloads =
       [wPayload 2 (List.range 24), wPayload 1 (List.range 12)]) :=
  ⟨by decide, by decide,
   claim_C3_batch_size_violation 2 cx7cfg cxRt
     [wPayload 2 (List.range 24), wPayload 1 (List.range 12)]
     (by decide) (by decide)⟩

/-- C4 (amended): a dispatch whose payloads all carry OK status and whose
total batch size is zero (for instance an empty payload list, or payloads of
batch size zero) returns success without invoking the runtime. A dispatch in
which payloads are pre-failed does not reach this path: it fails with an
internal error (the behaviour proved as C5). -/
theorem claim_C4_zero_batch_vacuous_success (max_batch_size : Nat)
    (cfg : ModelConfig) (rt : RunCall → Except String (List (Option OrtTensor)))
    (payloads : List Payload)
    (hok : ∀ p ∈ payloads, p.status.IsOk = true)
    (hB0 : totalBatchSize payloads = 0) :
    (contextRun max_batch_size cfg rt payloads).status = Status.Success ∧
    (contextRun max_batch_size cfg rt payloads).runtimeCalls = [] ∧
    (contextRun max_batch_size cfg rt payloads).payloads = payloads := by
  have hall : payloads.all (fun q => q.status.IsOk) = true := by
    rw [List.all_eq_true]
    exact hok
  simp [contextRun, hall, hB0]

theorem claim_C4_counterexample :
    cxFailedPayload.status.IsOk = false ∧
    totalBatchSize [cxFailedPayload] = 0 ∧
    (contextRun 8 cx7cfg cxRt [cxFailedPayload]).status ≠ Status.Success ∧
    (contextRun 8 cx7cfg cxRt [cxFailedPayload]).status.IsOk = false := by
  refine ⟨rfl, rfl, ?_, ?_⟩ <;> decide

theorem claim_C4_witness :
    (∀ p ∈ [wPayload 0 []], p.status.IsOk = true) ∧
    totalBatchSize [wPayload 0 []] = 0 ∧
    ((contextRun 8 cx7cfg cxRt [wPayload 0 []]).status = Status.Success ∧
     (contextRun 8 cx7cfg cxRt [wPayload 0 []]).runtimeCalls = [] ∧
     (contextRun 8 cx7cfg cxRt [wPayload 0 []]).payloads = [wPayload 0 []]) :=
  ⟨by decide, rfl,
   claim_C4_zero_batch_vacuous_success 8 cx7cfg cxRt [wPayload 0 []]
     (by decide) rfl⟩

theorem assembleDeclared_ok (max_batch_size total_batch_size : Nat)
    (cfg : ModelConfig) :
    ∀ (entries : List (String × List Nat)) (ps : List Payload),
      (∀ e ∈ entries, (GetInput cfg e.1).isSome = true) →
      (assembleDeclared max_batch_size total_batch_size cfg entries ps).1 = none ∧
      (assembleDeclared max_batch_size total_batch_size cfg entries ps).2.2.map
        Prod.fst = entries.map Prod.fst := by
  intro entries
  induction entries with
  | nil => intro ps _; exact ⟨rfl, rfl⟩
  | cons e rest ih =>
    intro ps hin
    obtain ⟨nm, dims⟩ := e
    have hsome : (GetInput cfg nm).isSome = true :=
      hin (nm, dims) (List.mem_cons_self _ _)
    obtain ⟨ic, hic⟩ := Option.isSome_iff_exists.mp hsome
    have hrest : ∀ e ∈ rest, (GetInput cfg e.1).isSome = true := fun e he =>
      hin e (List.mem_cons_of_mem _ he)
    have hr := ih (SetInputTensor max_batch_size nm ic.data_type dims
      total_batch_size ps).2.1 hrest
    simp only [assembleDeclared, hic]
    exact ⟨hr.1, by simp only [List.map_cons, hr.2]⟩

theorem assembleOverrides_names (max_batch_size total_batch_size : Nat) :
    ∀ (ovs : List InputOverride) (ps : List Payload),
      (assembleOverrides max_batch_size total_batch_size ovs ps).2.map Prod.fst =
        ovs.map InputOverride.name := by
  intro ovs
  induction ovs with
  | nil => intro ps; rfl
  | cons ov rest ih =>
    intro ps
    simp only [assembleOverrides, List.map_cons, ih]

/-- C8: a dispatch with nonzero total batch size that passes batch-size
validation (total equal to one or within the maximum) and whose declared
input names are all present in the model configuration invokes the runtime
exactly once, and that single invocation carries the names of all outputs
declared in the model configuration — never a subset filtered by which
outputs individual payloads requested (the payloads' `requiresOutput`
predicates do not appear in the call). -/
theorem claim_C8_runtime_once_all_outputs (max_batch_size : Nat)
    (cfg : ModelConfig) (rt : RunCall → Except String (List (Option OrtTensor)))
    (payloads : List Payload)
    (hok : ∀ p ∈ payloads, p.status.IsOk = true)
    (hB : totalBatchSize payloads ≠ 0)
    (hfit : totalBatchSize payloads = 1 ∨
      totalBatchSize payloads ≤ max_batch_size)
    (hin : ∀ e ∈ (payloads.getLast?.getD default).headerInputs,
      (GetInput cfg e.1).isSome = true) :
    (contextRun max_batch_size cfg rt payloads).runtimeCalls.map
        (fun c => c.outputNames) = [cfg.output.map (fun o => o.name)] := by
  have hall : payloads.all (fun q => q.status.IsOk) = true := by
    rw [List.all_eq_true]
    exact hok
  have hnb : ¬ (totalBatchSize payloads ≠ 1 ∧
      totalBatchSize payloads > max_batch_size) := by
    rcases hfit with h | h
    · intro hc; exact hc.1 h
    · intro hc; omega
  have ha := assembleDeclared_ok max_batch_size (totalBatchSize payloads) cfg
    (payloads.getLast?.getD default).headerInputs payloads hin
  simp only [contextRun, hall, Bool.true_eq_false, if_false, if_neg hB,
    if_neg hnb, ha.1]
  cases hrt : rt ⟨((assembleDeclared max_batch_size (totalBatchSize payloads) cfg
      (payloads.getLast?.getD default).headerInputs payloads).2.2 ++
      (assembleOverrides max_batch_size (totalBatchSize payloads)
        (payloads.getLast?.getD default).overrides
        (assembleDeclared max_batch_size (totalBatchSize payloads) cfg
          (payloads.getLast?.getD default).headerInputs payloads).2.1).2).map
        Prod.fst,
      ((assembleDeclared max_batch_size (totalBatchSize payloads) cfg
      (payloads.getLast?.getD default).headerInputs payloads).2.2 ++
      (assembleOverrides max_batch_size (totalBatchSize payloads)
        (payloads.getLast?.getD default).overrides
        (assembleDeclared max_batch_size (totalBatchSize payloads) cfg
          (payloads.getLast?.getD default).headerInputs payloads).2.1).2).map
        Prod.snd,
      cfg.output.map (fun o => o.name)⟩ <;>
    simp [hrt]

theorem claim_C8_witness :
    (∀ p ∈ [wPayload 1 (List.range 12)], p.status.IsOk = true) ∧
    totalBatchSize [wPayload 1 (List.range 12)] ≠ 0 ∧
    (totalBatchSize [wPayload 1 (List.range 12)] = 1 ∨
      totalBatchSize [wPayload 1 (List.range 12)] ≤ 8) ∧
    (∀ e ∈ (([wPayload 1 (List.range 12)].getLast?.getD default)).headerInputs,
      (GetInput cx8cfg e.1).isSome = true) ∧
    (contextRun 8 cx8cfg cxRt [wPayload 1 (List.range 12)]).runtimeCalls.map
        (fun c => c.outputNames) = [cx8cfg.output.map (fun o => o.name)] :=
  ⟨by decide, by decide, by decide, by decide,
   claim_C8_runtime_once_all_outputs 8 cx8cfg cxRt [wPayload 1 (List.range 12)]
     (by decide) (by decide) (by decide) (by decide)⟩

theorem claim_C10_counterexample :
    cxOverridePayload.overrides.map InputOverride.name = ["EXTRA"] ∧
    cxPlainPayload.overrides = [] ∧
    (contextRun 8 (⟨[], []⟩ : ModelConfig) cxRt
        [cxOverridePayload, cxPlainPayload]).runtimeCalls.map
          (fun c => c.inputNames) = [[]] ∧
    (contextRun 8 (⟨[], []⟩ : ModelConfig) cxRt
        [cxOverridePayload, cxPlainPayload]).status = Status.Success := by
  refine ⟨by decide, rfl, by decide, ?_⟩
  rfl

/-- C10 (amended): the input overrides assembled for a batched run are
exactly those supplied by the representative payload — the last payload of
the dispatch, whose request provider `Context::Run` retains from its payload
scan — appended after the declared inputs of the representative's request
header; overrides supplied only by other payloads in the batch are not
assembled. -/
theorem claim_C10_overrides_from_representative (max_batch_size : Nat)
    (cfg : ModelConfig) (rt : RunCall → Except String (List (Option OrtTensor)))
    (payloads : List Payload)
    (hok : ∀ p ∈ payloads, p.status.IsOk = true)
    (hB : totalBatchSize payloads ≠ 0)
    (hfit : totalBatchSize payloads = 1 ∨
      totalBatchSize payloads ≤ max_batch_size)
    (hin : ∀ e ∈ (payloads.getLast?.getD default).headerInputs,
      (GetInput cfg e.1).isSome = true) :
    (contextRun max_batch_size cfg rt payloads).runtimeCalls.map
        (fun c => c.inputNames) =
      [(payloads.getLast?.getD default).headerInputs.map Prod.fst ++
        (payloads.getLast?.getD default).overrides.map InputOverride.name] := by
  have hall : payloads.all (fun q => q.status.IsOk) = true := by
    rw [List.all_eq_true]
    exact hok
  have hnb : ¬ (totalBatchSize payloads ≠ 1 ∧
      totalBatchSize payloads > max_batch_size) := by
    rcases hfit with h | h
    · intro hc; exact hc.1 h
    · intro hc; omega
  have ha := assembleDeclared_ok max_batch_size (totalBatchSize payloads) cfg
    (payloads.getLast?.getD default).headerInputs payloads hin
  have hov := assembleOverrides_names max_batch_size (totalBatchSize payloads)
    (payloads.getLast?.getD default).overrides
    (assembleDeclared max_batch_size (totalBatchSize payloads) cfg
      (payloads.getLast?.getD default).headerInputs payloads).2.1
  simp only [contextRun, hall, Bool.true_eq_false, if_false, if_neg hB,
    if_neg hnb, ha.1]
  cases hrt : rt ⟨((assembleDeclared max_batch_size (totalBatchSize payloads) cfg
      (payloads.getLast?.getD default).headerInputs payloads).2.2 ++
      (assembleOverrides max_batch_size (totalBatchSize payloads)
        (payloads.getLast?.getD default).overrides
        (assembleDeclared max_batch_size (totalBatchSize payloads) cfg
          (payloads.getLast?.getD default).headerInputs payloads).2.1).2).map
        Prod.fst,
      ((assembleDeclared max_batch_size (totalBatchSize payloads) cfg
      (payloads.getLast?.getD default).headerInputs payloads).2.2 ++
      (assembleOverrides max_batch_size (totalBatchSize payloads)
        (payloads.getLast?.getD default).overrides
        (assembleDeclared max_batch_size (totalBatchSize payloads) cfg
          (payloads.getLast?.getD default).headerInputs payloads).2.1).2).map
        Prod.snd,
      cfg.output.map (fun o => o.name)⟩ <;>
    simp [hrt, List.map_append, ha.2, hov]

theorem claim_C10_witness :
    (∀ p ∈ [cxOverridePayload], p.status.IsOk = true) ∧
    totalBatchSize [cxOverridePayload] ≠ 0 ∧
    (totalBatchSize [cxOverridePayload] = 1 ∨ totalBatchSize [cxOverridePayload] ≤ 8) ∧
    (∀ e ∈ (([cxOverridePayload].getLast?.getD default)).headerInputs,
      (GetInput (⟨[], []⟩ : ModelConfig) e.1).isSome = true) ∧
    (contextRun 8 (⟨[], []⟩ : ModelConfig) cxRt [cxOverridePayload]).runtimeCalls.map
        (fun c => c.inputNames) =
      [([cxOverridePayload].getLast?.getD default).headerInputs.map Prod.fst ++
        ([cxOverridePayload].getLast?.getD default).overrides.map
          InputOverride.name] :=
  ⟨by decide, by decide, by decide, by decide,
   claim_C10_overrides_from_representative 8 (⟨[], []⟩ : ModelConfig) cxRt
     [cxOverridePayload] (by decide) (by decide) (by decide) (by decide)⟩

/-- C9: for every dispatch `OnnxBackend::Run` hands to a context — whatever
the run status — the per-run input and output tensor handle lists of the
dispatched context are released and left empty, the release happens before
the completion callback in the event order, the completion callback is
invoked exactly once, and the context's persistent state (session handle,
allocator handle, device binding and maximum batch size) is unchanged. -/
theorem claim_C9_release_and_single_completion (cfg : ModelConfig)
    (rt : RunCall → Except String (List (Option OrtTensor)))
    (contexts : List Context) (runner_idx : Nat) (payloads : List Payload)
    (c0 : Context) (hc : contexts.get? runner_idx = some c0) :
    (∃ c1, (onnxBackendRun cfg rt contexts runner_idx payloads).1.get?
        runner_idx = some c1 ∧
      c1.input_tensors = [] ∧ c1.output_tensors = [] ∧
      c1.session = c0.session ∧ c1.allocator_info = c0.allocator_info ∧
      c1.gpu_device = c0.gpu_device ∧ c1.max_batch_size = c0.max_batch_size) ∧
    (∃ st, (onnxBackendRun cfg rt contexts runner_idx payloads).2.2 =
      [RunEvent.contextRan, RunEvent.releasedRunResources,
       RunEvent.completionCalled st]) ∧
    ((onnxBackendRun cfg rt contexts runner_idx payloads).2.2.countP
      isCompletionEvent) = 1 := by
  have hlt : runner_idx < contexts.length := by
    rcases List.get?_eq_some.mp hc with ⟨h1, _⟩
    exact h1
  refine ⟨⟨ReleaseOrtRunResources
    { c0 with
        input_tensors := (contextRun c0.max_batch_size cfg rt payloads).inputTensors,
        output_tensors := (contextRun c0.max_batch_size cfg rt payloads).outputTensors },
    ?_, rfl, rfl, rfl, rfl, rfl, rfl⟩,
    ⟨(contextRun c0.max_batch_size cfg rt payloads).status, ?_⟩, ?_⟩
  · simp only [onnxBackendRun, hc]
    exact List.get?_set_eq_of_lt _ hlt
  · simp only [onnxBackendRun, hc]
  · simp only [onnxBackendRun, hc]
    rfl

theorem claim_C9_witness :
    [cx9context].get? 0 = some cx9context ∧
    ((∃ c1, (onnxBackendRun cx8cfg cxRt [cx9context] 0
        [wPayload 1 (List.range 12)]).1.get? 0 = some c1 ∧
      c1.input_tensors = [] ∧ c1.output_tensors = [] ∧
      c1.session = cx9context.session ∧
      c1.allocator_info = cx9context.allocator_info ∧
      c1.gpu_device = cx9context.gpu_device ∧
      c1.max_batch_size = cx9context.max_batch_size) ∧
    (∃ st, (onnxBackendRun cx8cfg cxRt [cx9context] 0
        [wPayload 1 (List.range 12)]).2.2 =
      [RunEvent.contextRan, RunEvent.releasedRunResources,
       RunEvent.completionCalled st]) ∧
    ((onnxBackendRun cx8cfg cxRt [cx9context] 0
        [wPayload 1 (List.range 12)]).2.2.countP isCompletionEvent) = 1) :=
  ⟨rfl, claim_C9_release_and_single_completion cx8cfg cxRt [cx9context] 0
    [wPayload 1 (List.range 12)] cx9context rfl⟩
